import Mathlib

/-!
Verification development for the ratt distributed rebuild system
(ratt-builder admission/build worker, ratt-balancer-roundrobin, and the
gRPC orchestrator). Go code is shallowly embedded: pure path manipulation
(path/filepath Clean, Join, Abs, Rel on slash-separated Unix paths) is
modelled component-wise, the builder's lease table as an explicit state
record, and the orchestrator's retry/classification loop as pure step
functions.
-/

namespace Ratt

/-! ## Slash-separated path model (path/filepath on Unix)

Paths are strings whose components are separated by the single byte
slash. The functions below implement Go's filepath.Clean, filepath.Join,
filepath.Abs and filepath.Rel for such paths, working on the component
lists obtained by splitting on the separator (on Unix there are no
volume names, so this component view is exactly how those functions
traverse the string). -/

/-- Split a character list on the slash separator, accumulating the
current component in reverse (mirrors strings.Split(s, slash)). -/
def splitSlashAux : List Char → List Char → List String
  | [], acc => [String.mk acc.reverse]
  | c :: rest, acc =>
    if c = '/' then String.mk acc.reverse :: splitSlashAux rest []
    else splitSlashAux rest (c :: acc)

/-- Split a path string into its slash-separated components, keeping
empty components (as strings.Split does). -/
def splitSlash (s : String) : List String :=
  splitSlashAux s.data []

/-- Whether the path is rooted, i.e. begins with the separator
(filepath.IsAbs on Unix). -/
def isRooted (s : String) : Bool :=
  match s.data with
  | [] => false
  | c :: _ => c = '/'

/-- String prefix test (strings.HasPrefix), used to express that a
resolved path lies outside a directory. -/
def strStartsWith (s pre : String) : Bool :=
  pre.data.isPrefixOf s.data

/-- One step of filepath.Clean's element loop, on a reversed stack of
output components: empty and dot elements are dropped, dotdot pops the
previous element when possible (and disappears at the root), any other
element is pushed. -/
def cleanStep (rooted : Bool) (acc : List String) (c : String) : List String :=
  if c = "" ∨ c = "." then acc
  else if c = ".." then
    match acc with
    | [] => if rooted then [] else [".."]
    | a :: rest => if a = ".." then c :: acc else rest
  else c :: acc

/-- Join components with the separator (no leading or trailing slash). -/
def joinComps : List String → String
  | [] => ""
  | [c] => c
  | c :: rest => c ++ "/" ++ joinComps rest

/-- filepath.Clean for slash-separated paths: apply the element rules to
every component and re-render, restoring the leading slash for rooted
paths and returning a dot for an empty result. -/
def cleanGo (p : String) : String :=
  let rooted := isRooted p
  let comps := ((splitSlash p).foldl (fun acc c => cleanStep rooted acc c) []).reverse
  let out := joinComps comps
  if rooted then "/" ++ out
  else if out = "" then "." else out

/-- filepath.Join for two elements: empty elements are dropped, the rest
are joined with the separator and the result is Cleaned. -/
def joinGo (a b : String) : String :=
  if a = "" ∧ b = "" then ""
  else if a = "" then cleanGo b
  else if b = "" then cleanGo a
  else cleanGo (a ++ "/" ++ b)

/-- filepath.Abs: an already-absolute path is Cleaned, a relative one is
joined onto the working directory (Getwd is modelled by the cwd
argument; its failure mode is not modelled). -/
def absGo (cwd p : String) : String :=
  if isRooted p then cleanGo p else joinGo cwd p

/-- Drop the common prefix of two component lists, returning the two
remainders (the position the first differing elements reach in
filepath.Rel's scan loop). -/
def stripCommon : List String → List String → List String × List String
  | a :: as, b :: bs =>
    if a = b then stripCommon as bs else (a :: as, b :: bs)
  | as, bs => (as, bs)

/-- The slash-separated components of a Cleaned path for filepath.Rel's
segment scan: a lone dot contributes no components for the base side,
and the leading empty segment of a rooted path is immaterial because
Rel already requires both sides to be equally rooted. -/
def relComps (p : String) : List String :=
  if p = "." then [] else (splitSlash p).filter (fun c => ¬ c = "")

/-- filepath.Rel on Unix: Clean both paths, succeed with a dot when they
are equal, fail when exactly one is rooted, otherwise drop the common
component prefix, fail when the next base component is dotdot, and
answer with one dotdot per remaining base component followed by the
remaining target components. -/
def relGo (basepath targpath : String) : Except String String :=
  let base := cleanGo basepath
  let targ := cleanGo targpath
  if targ = base then Except.ok "."
  else
    let base2 := if base = "." then "" else base
    if (isRooted base2) ≠ (isRooted targ) then
      Except.error ("Rel: cannot make " ++ targpath ++ " relative to " ++ basepath)
    else
      let (bRest, tRest) := stripCommon (relComps base2) (relComps targ)
      if bRest.head? = some ".." then
        Except.error ("Rel: cannot make " ++ targpath ++ " relative to " ++ basepath)
      else
        Except.ok (joinComps (List.replicate bRest.length ".." ++ tRest))

/-- relativeTo from cmd/ratt-builder/builder.go: returns ok when
Rel(base, Abs(Join(base, dir))) comes back equal to dir, and the
"outside of the cache directory" error otherwise (the cwd argument
stands for the process working directory consulted by filepath.Abs). -/
def relativeTo (cwd base dir : String) : Except String Unit :=
  let abs := absGo cwd (joinGo base dir)
  match relGo base abs with
  | Except.error e => Except.error e
  | Except.ok rel =>
    if rel = dir then Except.ok ()
    else Except.error ("invalid file name " ++ dir ++ ": outside of the cache directory")

/-! ## Builder admission-control state (cmd/ratt-builder/builder.go)

The server's mutable state relevant to the semaphore service: the lease
table s.builds (a map from build id to its done channel, modelled as
the list of ids currently present) together with the set of done
channels that have been closed (closing a lease's channel is what
unblocks the pending Acquire call holding it). Each handler holds
s.mu for its whole body, so handler executions interleave atomically;
the step relation below captures exactly those atomic transitions. -/

/-- The builder server state guarded by s.mu: the ids present in the
s.builds lease table, plus the ids whose done channel has been closed
(channels outlive their table entry: the blocked Acquire goroutine
still holds a reference after deletion). -/
structure BuilderState where
  builds : List String
  closed : List String
  deriving DecidableEq, Repr

/-- The empty initial state from main: builds = make(map[buildId]chan struct\x7b\x7d). -/
def initialBuilder : BuilderState := ⟨[], []⟩

/-- acquireSemaphore: under the lock, fail with the overloaded error
when the table already holds at least concurrentBuilds entries;
otherwise create a fresh working directory whose base name is the new
unique lease id (ioutil.TempDir; the fresh name is an argument, its
I/O failure modes are not modelled), insert it into the table, and
return it. The state is returned alongside the result so that the
no-mutation-on-failure behaviour is explicit. -/
def acquireSemaphore (cap : Nat) (s : BuilderState) (fresh : String) :
    BuilderState × Except String String :=
  if s.builds.length ≥ cap then
    (s, Except.error "overloaded: maximum concurrent builds reached")
  else
    (⟨fresh :: s.builds, s.closed⟩, Except.ok fresh)

/-- The one reply message streamed back by Acquire. -/
structure AcquireReply where
  buildId : String
  hostPort : String
  deriving DecidableEq, Repr

/-- The grant phase of the Acquire handler: call acquireSemaphore and,
on success, send exactly one AcquireReply carrying the lease id and
the worker's own reachable address, then keep the RPC pending. The
second component is the list of messages sent on the stream. -/
def acquireGrant (cap : Nat) (s : BuilderState) (fresh : String) :
    BuilderState × Except String (List AcquireReply) :=
  match acquireSemaphore cap s fresh with
  | (s2, Except.error e) => (s2, Except.error e)
  | (s2, Except.ok id) =>
    (s2, Except.ok [⟨id, "localhost:12311"⟩])

/-- Release: under the lock, fail with the invalid-build-id error when
the id is not in the table; otherwise close that lease's done channel
(unblocking the pending Acquire) and delete exactly that entry. -/
def releaseLease (s : BuilderState) (id : String) :
    BuilderState × Except String Unit :=
  if s.builds.contains id then
    (⟨s.builds.erase id, id :: s.closed⟩, Except.ok ())
  else
    (s, Except.error (id ++ " is not a valid build id"))

/-- Whether the select in the tail of the Acquire handler has been
woken through its done branch: true exactly when the lease's channel
has been closed by Release. -/
def doneClosed (s : BuilderState) (id : String) : Bool :=
  s.closed.contains id

/-- The externally triggered atomic events on the builder's semaphore
state: an Acquire attempt (with the fresh directory name TempDir would
produce), a Release attempt, and the cancellation of a pending Acquire
call's context (caller disconnect). -/
inductive BuilderEvent where
  | acquire (fresh : String)
  | release (id : String)
  | disconnect (id : String)
  deriving DecidableEq, Repr

/-- One atomic transition of the builder's semaphore state. Acquire and
Release transitions follow the handler bodies; a fresh TempDir name is
never an existing lease id (TempDir creates a directory that does not
yet exist, and every tabled id names an existing directory). The
disconnect transition is the ctx-done branch of the select at the end
of Acquire: the handler merely returns, touching no state. -/
inductive builderStep (cap : Nat) : BuilderState → BuilderEvent → BuilderState → Prop
  | acquireOk {s : BuilderState} {fresh : String} {s2 : BuilderState} {id : String}
      (hfresh : fresh ∉ s.builds)
      (h : acquireSemaphore cap s fresh = (s2, Except.ok id)) :
      builderStep cap s (BuilderEvent.acquire fresh) s2
  | acquireFail {s : BuilderState} {fresh : String} {e : String}
      (h : acquireSemaphore cap s fresh = (s, Except.error e)) :
      builderStep cap s (BuilderEvent.acquire fresh) s
  | releaseOk {s : BuilderState} {id : String} {s2 : BuilderState}
      (h : releaseLease s id = (s2, Except.ok ())) :
      builderStep cap s (BuilderEvent.release id) s2
  | releaseFail {s : BuilderState} {id : String} {e : String}
      (h : releaseLease s id = (s, Except.error e)) :
      builderStep cap s (BuilderEvent.release id) s
  | disconnect {s : BuilderState} (id : String) :
      builderStep cap s (BuilderEvent.disconnect id) s

/-- States reachable from the initial empty lease table by any
interleaving of the events above. -/
inductive builderReachable (cap : Nat) : BuilderState → Prop
  | init : builderReachable cap initialBuilder
  | step (s : BuilderState) (e : BuilderEvent) (s2 : BuilderState)
      (hr : builderReachable cap s) (hs : builderStep cap s e s2) :
      builderReachable cap s2

/-! ## Orchestrator error taxonomy and retry decision (sbuild gRPC client
and the job loop of the orchestrator main) -/

/-- The errors the orchestrator can observe: the client-side wrapper
around a failed Recv on the Acquire stream (semaphoreAcquireError), an
error carrying a gRPC status code (as recognised by status.FromError),
and a plain error string with no status. -/
inductive GoError where
  | semaphoreAcquireError (inner : GoError)
  | grpcStatus (code : Nat) (msg : String)
  | errorString (msg : String)
  deriving DecidableEq, Repr

/-- codes.Unavailable. -/
def codeUnavailable : Nat := 14

/-- isTemporary: an error is transient when it is a
semaphoreAcquireError, or when status.FromError recognises it and its
code is Unavailable. -/
def isTemporary : GoError → Bool
  | GoError.semaphoreAcquireError _ => true
  | GoError.grpcStatus code _ => code == codeUnavailable
  | GoError.errorString _ => false

/-- The acquire handshake of sbuild.build: a failure of the Acquire
call itself is returned as-is, while a failure of the first Recv on
the stream (how a worker's overloaded refusal reaches the client) is
wrapped in semaphoreAcquireError. -/
def clientAcquire (callResult : Except GoError Unit)
    (recvResult : Except GoError AcquireReply) : Except GoError AcquireReply :=
  match callResult with
  | Except.error e => Except.error e
  | Except.ok _ =>
    match recvResult with
    | Except.error e => Except.error (GoError.semaphoreAcquireError e)
    | Except.ok a => Except.ok a

/-- A finished build attempt: err is set when the build tool exited
non-zero (exit status propagated by Wait), and logFile points at the
captured log. -/
structure BuildResult where
  err : Option GoError
  logFile : String
  deriving DecidableEq, Repr

/-- The per-job mutable state of the orchestrator's job closure: the
recheck marker, the primary and recheck results, and the build request
fields that the recheck transition mutates (extra debs injected into
the build, and the log directory). -/
structure JobState where
  recheck : Bool
  result : Option BuildResult
  recheckResult : Option BuildResult
  extraDebs : List String
  logDir : String
  deriving DecidableEq, Repr

/-- The job state at the top of the loop: no recheck yet, no results,
the .changes debs injected, the configured log directory. -/
def initJob (extraDebs : List String) (logDir : String) : JobState :=
  ⟨false, none, none, extraDebs, logDir⟩

/-- The three report categories. -/
inductive category where
  | alreadyBroken
  | failing
  | passing
  deriving DecidableEq, Repr

/-- Whether an optional build result carries a build failure (reads
result.err != nil; in every flow that reaches it the optional value is
set). -/
def optionErrSome : Option BuildResult → Bool
  | none => false
  | some r => r.err.isSome

/-- The classification at the bottom of the job loop: alreadyBroken
when a recheck ran and the recheck build failed, otherwise failing
when the primary build failed, otherwise passing. -/
def classifyJob (j : JobState) : category :=
  if j.recheck && optionErrSome j.recheckResult then category.alreadyBroken
  else if optionErrSome j.result then category.failing
  else category.passing

/-- What one pass of the job loop decides after the build attempt comes
back: retry (transient error: wait on the shared retry ticker, release
the local concurrency token, loop), abort (non-transient error
returned out of the errgroup, killing the whole run), loop again in
recheck mode, or record a categorized result and break. -/
inductive JobStep where
  | retry
  | abort (e : GoError)
  | recheckLoop (j : JobState)
  | finished (j : JobState) (c : category)
  deriving DecidableEq, Repr

/-- One pass of the job loop body, from the return of job.build.build:
on error, retry exactly when isTemporary, otherwise abort; on a
completed build, store the result in the result or recheckResult slot,
and when it failed with recheck configured and not yet performed,
enter recheck mode with no injected debs and the recheck log
directory; otherwise classify and finish. -/
def buildIteration (recheckFlag : Bool) (j : JobState)
    (outcome : Except GoError BuildResult) : JobStep :=
  match outcome with
  | Except.error e =>
    if isTemporary e then JobStep.retry else JobStep.abort e
  | Except.ok result =>
    let j2 := if !j.recheck then { j with result := some result }
              else { j with recheckResult := some result }
    if result.err.isSome && (recheckFlag && !j2.recheck) then
      JobStep.recheckLoop
        { j2 with recheck := true, extraDebs := [], logDir := j2.logDir ++ "_recheck" }
    else
      JobStep.finished j2 (classifyJob j2)

/-- How a whole job ends: aborted with a non-transient error, or
classified; outOfFuel marks exhaustion of the supplied attempt
outcomes (the Go loop would keep iterating). -/
inductive JobOutcome where
  | aborted (e : GoError)
  | classified (c : category) (j : JobState)
  | outOfFuel
  deriving DecidableEq, Repr

/-- Run the job loop against a list of build-attempt outcomes (one per
executed build call), returning how the job ends together with the
list of extra-deb injections used by the successive build calls. -/
def runJobTrace (recheckFlag : Bool) :
    JobState → List (Except GoError BuildResult) → JobOutcome × List (List String)
  | _, [] => (JobOutcome.outOfFuel, [])
  | j, o :: rest =>
    match buildIteration recheckFlag j o with
    | JobStep.retry =>
      let r := runJobTrace recheckFlag j rest
      (r.1, j.extraDebs :: r.2)
    | JobStep.abort e => (JobOutcome.aborted e, [j.extraDebs])
    | JobStep.recheckLoop j2 =>
      let r := runJobTrace recheckFlag j2 rest
      (r.1, j.extraDebs :: r.2)
    | JobStep.finished j2 c => (JobOutcome.classified c j2, [j.extraDebs])

/-! ## Final report and exit status (orchestrator main, tail) -/

/-- One entry of the buildresults map. -/
structure categorizedResult where
  cat : category
  result : String
  deriving DecidableEq, Repr

/-- The order in which the final loop walks the categories: passing
results are reported first. -/
def categoryOrder : List category :=
  [category.passing, category.alreadyBroken, category.failing]

/-- The report produced by the tail of main: for each category in
order, every buildresults entry of that category is printed; an entry
is represented here by its category and its package key. -/
def reportEntries (rs : List (String × categorizedResult)) : List (category × String) :=
  categoryOrder.flatMap
    (fun c => (rs.filter (fun p => p.2.cat == c)).map (fun p => (c, p.1)))

/-- The orchestrator process exit status after the build phase: 1 when
the errgroup came back with an error (log.Fatal), and 0 otherwise —
the build results, Failing entries included, do not influence it. -/
def mainExit (egErr : Option GoError) : Nat :=
  match egErr with
  | some _ => 1
  | none => 0

/-- A completed run whose single package is classified Failing. -/
def failingRun : List (String × categorizedResult) :=
  [("pkg1", ⟨category.failing, "FAILED: pkg1 (see buildlogs/pkg1)"⟩)]

/-! ## Progress reporter (birdseye.go) and its indexing by the
orchestrator -/

/-- The per-slot state symbols. -/
inductive birdseyeState where
  | stateUnstarted
  | stateInit
  | stateSleep
  | stateRun
  | stateError
  | stateDone
  deriving DecidableEq, Repr

/-- birdseye.status: writes states[num]; an index at or beyond the
length of the states array is an out-of-range panic, modelled as
none. -/
def birdseyeStatus (states : List birdseyeState) (num : Nat) (st : birdseyeState) :
    Option (List birdseyeState) :=
  if num < states.length then some (states.set num st) else none

/-- The states array allocated by the orchestrator main: one entry per
advertised capacity slot (make with the builder's ConcurrentBuilds). -/
def orchestratorStates (cap : Nat) : List birdseyeState :=
  List.replicate cap birdseyeState.stateUnstarted

/-- The zero-indexed job counters cnt passed by the per-package tasks
to birdseye.status: one per candidate package. -/
def jobIndices (npkgs : Nat) : List Nat := List.range npkgs

/-! ## Balancer dynamic resolver (cmd/ratt-balancer-roundrobin) -/

/-- A directory entry as seen by the poll: its name and whether its
mode has the socket bit. -/
structure DirEntry where
  name : String
  isSocket : Bool
  deriving DecidableEq, Repr

/-- The operation of a naming.Update. -/
inductive UpdateOp where
  | add
  | delete
  deriving DecidableEq, Repr

/-- A naming.Update: an operation and a backend address. -/
structure NamingUpdate where
  op : UpdateOp
  addr : String
  deriving DecidableEq, Repr

/-- The keys of the newSockets map: names of the directory entries
whose mode has the socket bit (non-sockets are skipped). -/
def socketNames (fis : List DirEntry) : List String :=
  (fis.filter (fun fi => fi.isSocket)).map (fun fi => fi.name)

/-- reflect.DeepEqual on the two string-keyed all-true maps: equality
of their key sets. -/
def sameSocketSet (old new : List String) : Bool :=
  old.all (fun s => new.contains s) && new.all (fun s => old.contains s)

/-- One poll of resolver.Next after the initial static phase: list the
directory, keep the socket entries, and when the set changed emit one
delete per vanished socket and one add per appeared socket (addresses
are the names joined onto the socket directory) and retain the new
set; when the set is unchanged emit nothing. -/
def resolverNext (socketDir : String) (old : List String) (fis : List DirEntry) :
    List NamingUpdate × List String :=
  let newS := socketNames fis
  if sameSocketSet old newS then ([], old)
  else
    ((old.filter (fun s => !newS.contains s)).map
        (fun s => ⟨UpdateOp.delete, joinGo socketDir s⟩) ++
      (newS.filter (fun s => !old.contains s)).map
        (fun s => ⟨UpdateOp.add, joinGo socketDir s⟩),
      newS)

/-- Helper: the lease table of every reachable state has no duplicate
ids (fresh TempDir names are new, and erase preserves distinctness). -/
theorem builderReachable_nodup (cap : Nat) (s : BuilderState)
    (h : builderReachable cap s) : s.builds.Nodup := by
  induction h with
  | init => simp [initialBuilder]
  | step s e s2 hr hs ih =>
    cases hs with
    | acquireOk hfresh hstep =>
      unfold acquireSemaphore at hstep
      split at hstep
      · simp at hstep
      · rw [Prod.mk.injEq] at hstep
        rw [← hstep.1]
        exact List.Nodup.cons hfresh ih
    | acquireFail hstep => exact ih
    | releaseOk hstep =>
      unfold releaseLease at hstep
      split at hstep
      · rw [Prod.mk.injEq] at hstep
        rw [← hstep.1]
        exact List.Nodup.erase _ ih
      · simp at hstep
    | releaseFail hstep => exact ih
    | disconnect id => exact ih

/-- Claim C1: in every reachable state of a worker, the number of
outstanding leases never exceeds the configured capacity, and an
Acquire grants a lease only when the current count is strictly below
capacity (checked under the same lock that inserts the lease). -/
theorem acquire_release_capacity_bound (cap : Nat) :
    (∀ s, builderReachable cap s → s.builds.length ≤ cap) ∧
    (∀ s fresh r, (acquireSemaphore cap s fresh).2 = Except.ok r →
      s.builds.length < cap) := by
  constructor
  · intro s h
    induction h with
    | init => simp [initialBuilder]
    | step s e s2 hr hs ih =>
      cases hs with
      | acquireOk hfresh hstep =>
        unfold acquireSemaphore at hstep
        split at hstep
        · simp at hstep
        · rw [Prod.mk.injEq] at hstep
          rw [← hstep.1]
          simp only [List.length_cons]
          omega
      | acquireFail hstep => exact ih
      | releaseOk hstep =>
        unfold releaseLease at hstep
        split at hstep
        · rw [Prod.mk.injEq] at hstep
          rw [← hstep.1]
          exact le_trans (List.Sublist.length_le (List.erase_sublist _ _)) ih
        · simp at hstep
      | releaseFail hstep => exact ih
      | disconnect id => exact ih
  · intro s fresh r hok
    unfold acquireSemaphore at hok
    split at hok
    · simp at hok
    · omega

/-- Witness for C1 at capacity 1: the state holding one lease is
reachable and satisfies the bound, and the initial grant happened
strictly below capacity. -/
theorem acquire_release_capacity_bound_witness :
    (BuilderState.mk ["build1"] []).builds.length ≤ 1 ∧
    initialBuilder.builds.length < 1 := by
  refine ⟨(acquire_release_capacity_bound 1).1 ⟨["build1"], []⟩ ?_,
    (acquire_release_capacity_bound 1).2 initialBuilder "build1" "build1" rfl⟩
  exact builderReachable.step initialBuilder (BuilderEvent.acquire "build1") ⟨["build1"], []⟩
    builderReachable.init
    (builderStep.acquireOk (by simp [initialBuilder]) rfl)

/-- Claim C5: with the lease table strictly below capacity, Acquire
creates a fresh lease (a new unique id not previously in the table)
and streams back exactly one message carrying that id and the worker's
own address; at capacity it fails immediately with the overloaded
error and the lease table is unchanged. -/
theorem acquire_grant_or_overloaded (cap : Nat) (s : BuilderState) (fresh : String)
    (hfresh : fresh ∉ s.builds) :
    (s.builds.length < cap →
      acquireGrant cap s fresh =
        (⟨fresh :: s.builds, s.closed⟩, Except.ok [⟨fresh, "localhost:12311"⟩]) ∧
      fresh ∉ s.builds) ∧
    (s.builds.length ≥ cap →
      acquireGrant cap s fresh =
        (s, Except.error "overloaded: maximum concurrent builds reached")) := by
  constructor
  · intro hlt
    refine ⟨?_, hfresh⟩
    unfold acquireGrant acquireSemaphore
    have : ¬ s.builds.length ≥ cap := by omega
    simp [this]
  · intro hge
    unfold acquireGrant acquireSemaphore
    simp [hge]

/-- Witness for C5: a single-slot worker with an empty table grants
build1, and a single-slot worker already holding build1 is overloaded
for build2. -/
theorem acquire_grant_or_overloaded_witness :
    (acquireGrant 1 initialBuilder "build1" =
      (⟨["build1"], []⟩, Except.ok [⟨"build1", "localhost:12311"⟩]) ∧
      "build1" ∉ initialBuilder.builds) ∧
    acquireGrant 1 ⟨["build1"], []⟩ "build2" =
      (⟨["build1"], []⟩, Except.error "overloaded: maximum concurrent builds reached") := by
  refine ⟨(acquire_grant_or_overloaded 1 initialBuilder "build1" (by simp [initialBuilder])).1
      (by simp [initialBuilder]), ?_⟩
  exact (acquire_grant_or_overloaded 1 ⟨["build1"], []⟩ "build2" (by simp)).2 (by simp)

/-- Helper: list containment agrees with membership (true case). -/
theorem contains_true {l : List String} {a : String} (h : a ∈ l) :
    l.contains a = true :=
  List.elem_eq_true_of_mem h

/-- Helper: list containment agrees with membership (false case). -/
theorem contains_false {l : List String} {a : String} (h : a ∉ l) :
    l.contains a = false := by
  cases hc : l.contains a
  · rfl
  · exact absurd (List.mem_of_elem_eq_true hc) h

/-- Claim C6: releasing an id absent from the lease table fails cleanly
with the invalid-build-id error and leaves the table unchanged (no
other lease's capacity is freed); releasing a tabled id removes
exactly that one entry, leaves every other id's membership intact, and
closes that lease's done channel, unblocking the pending Acquire call
holding it. -/
theorem release_invalid_or_exact (s : BuilderState) (id : String)
    (hnd : s.builds.Nodup) :
    (id ∉ s.builds →
      releaseLease s id = (s, Except.error (id ++ " is not a valid build id"))) ∧
    (id ∈ s.builds →
      (releaseLease s id).2 = Except.ok () ∧
      (releaseLease s id).1.builds = s.builds.erase id ∧
      id ∉ (releaseLease s id).1.builds ∧
      (∀ j, j ≠ id → (j ∈ (releaseLease s id).1.builds ↔ j ∈ s.builds)) ∧
      (releaseLease s id).1.builds.length + 1 = s.builds.length ∧
      doneClosed (releaseLease s id).1 id = true) := by
  constructor
  · intro hnm
    have hc : ¬ s.builds.contains id = true := by
      rw [contains_false hnm]
      simp
    unfold releaseLease
    rw [if_neg hc]
  · intro hm
    have heq : releaseLease s id = (⟨s.builds.erase id, id :: s.closed⟩, Except.ok ()) := by
      unfold releaseLease
      rw [if_pos (contains_true hm)]
    rw [heq]
    refine ⟨rfl, rfl, hnd.not_mem_erase, ?_, ?_, ?_⟩
    · intro j hj
      exact List.mem_erase_of_ne hj
    · show (s.builds.erase id).length + 1 = s.builds.length
      have := List.length_erase_of_mem hm
      have hpos : 0 < s.builds.length := List.length_pos_of_mem hm
      omega
    · exact contains_true (List.mem_cons_self _ _)

/-- Witness for C6: on a worker holding leases a and b, releasing x
fails without touching the table, and releasing a removes only a. -/
theorem release_invalid_or_exact_witness :
    releaseLease ⟨["a", "b"], []⟩ "x" =
      (⟨["a", "b"], []⟩, Except.error "x is not a valid build id") ∧
    (releaseLease ⟨["a", "b"], []⟩ "a").1.builds = ["b"] ∧
    doneClosed (releaseLease ⟨["a", "b"], []⟩ "a").1 "a" = true := by
  have h1 := (release_invalid_or_exact ⟨["a", "b"], []⟩ "x" (by simp)).1 (by simp)
  have h2 := (release_invalid_or_exact ⟨["a", "b"], []⟩ "a" (by simp)).2 (by simp)
  exact ⟨h1, by rw [h2.2.1]; rfl, h2.2.2.2.2.2⟩

/-- Claim C9: a caller disconnecting from an open Acquire call ends the
call but changes no state — the lease entry stays in the table and its
slot stays consumed; across every transition of the builder, an id can
leave the lease table only through the event of a successful Release
of exactly that id. -/
theorem disconnect_keeps_lease (cap : Nat) (s s2 : BuilderState) (e : BuilderEvent)
    (hstep : builderStep cap s e s2) :
    (∀ id, e = BuilderEvent.disconnect id → s2 = s) ∧
    (∀ id, id ∈ s.builds → id ∉ s2.builds →
      e = BuilderEvent.release id ∧ (releaseLease s id).2 = Except.ok ()) := by
  cases hstep with
  | acquireOk hfresh hstep =>
    constructor
    · intro i hi; exact absurd hi (by simp)
    · intro i him hnm
      unfold acquireSemaphore at hstep
      split at hstep
      · simp at hstep
      · rw [Prod.mk.injEq] at hstep
        rw [← hstep.1] at hnm
        exact absurd (List.mem_cons_of_mem _ him) hnm
  | acquireFail hstep =>
    exact ⟨fun i hi => rfl, fun i him hnm => absurd him hnm⟩
  | releaseOk hstep =>
    rename_i idr
    constructor
    · intro i hi; exact absurd hi (by simp)
    · intro i him hnm
      unfold releaseLease at hstep
      split at hstep
      case isFalse => simp at hstep
      case isTrue hc =>
        rw [Prod.mk.injEq] at hstep
        rw [← hstep.1] at hnm
        have hii : i = idr := by
          by_contra hne
          exact hnm ((List.mem_erase_of_ne hne).mpr him)
        subst hii
        refine ⟨rfl, ?_⟩
        unfold releaseLease
        rw [if_pos hc]
  | releaseFail hstep =>
    exact ⟨fun i hi => rfl, fun i him hnm => absurd him hnm⟩
  | disconnect id =>
    exact ⟨fun i hi => rfl, fun i him hnm => absurd him hnm⟩

/-- Witness for C9: disconnecting the caller of the pending Acquire for
build1 leaves the one-lease state untouched, and releasing build1 is a
release of exactly build1. -/
theorem disconnect_keeps_lease_witness :
    (BuilderState.mk ["build1"] [] = ⟨["build1"], []⟩) ∧
    (BuilderEvent.release "build1" = BuilderEvent.release "build1" ∧
      (releaseLease ⟨["build1"], []⟩ "build1").2 = Except.ok ()) := by
  refine ⟨(disconnect_keeps_lease 1 ⟨["build1"], []⟩ ⟨["build1"], []⟩
      (BuilderEvent.disconnect "build1")
      (builderStep.disconnect "build1")).1 "build1" rfl, ?_⟩
  exact (disconnect_keeps_lease 1 ⟨["build1"], []⟩ ⟨[], ["build1"]⟩
      (BuilderEvent.release "build1")
      (builderStep.releaseOk (by rfl))).2
      "build1" (by simp) (by simp)

/-- Claim C2 (code bug): relativeTo does not reject every escaping
filename. The already-normalized traversal name ../../etc/passwd,
joined onto a lease working directory under the default cache root,
resolves to /var/cache/etc/passwd — outside the directory — yet Rel
reproduces the name verbatim, so the check passes and WriteFile goes
on to create the file at the escaped location. -/
theorem relativeTo_accepts_traversal :
    relativeTo "/" "/var/cache/ratt-builder/build1" "../../etc/passwd" = Except.ok () ∧
    joinGo "/var/cache/ratt-builder/build1" "../../etc/passwd" = "/var/cache/etc/passwd" ∧
    strStartsWith "/var/cache/etc/passwd" "/var/cache/ratt-builder/build1/" = false :=
  ⟨rfl, rfl, rfl⟩

/-- Claim C3 counterexample: retry is not limited to the overloaded and
temporarily-unavailable conditions. A worker-side MkdirAll failure is
itself non-transient (isTemporary rejects it, and it is not the
overloaded error), but it is returned before the grant is sent, so the
first Recv on the acquire stream fails and the client wraps it in
semaphoreAcquireError — and the job loop then retries instead of
aborting the run. -/
theorem nontransient_acquire_failure_retried :
    isTemporary (GoError.errorString "mkdir /var/cache/ratt-builder: permission denied") =
      false ∧
    GoError.errorString "mkdir /var/cache/ratt-builder: permission denied" ≠
      GoError.errorString "overloaded: maximum concurrent builds reached" ∧
    clientAcquire (Except.ok ())
        (Except.error (GoError.errorString "mkdir /var/cache/ratt-builder: permission denied")) =
      Except.error (GoError.semaphoreAcquireError
        (GoError.errorString "mkdir /var/cache/ratt-builder: permission denied")) ∧
    buildIteration false (initJob [] "buildlogs")
        (Except.error (GoError.semaphoreAcquireError
          (GoError.errorString "mkdir /var/cache/ratt-builder: permission denied"))) =
      JobStep.retry :=
  ⟨rfl, by decide, rfl, rfl⟩

/-- Claim C3 as amended: a failed build-orchestration attempt is
retried (token released, shared ticker awaited) exactly when
isTemporary holds — that is, exactly when the acquire handshake failed
on the stream (any error surfaced by the first Recv on the Acquire
stream, which is the form in which the worker's overloaded refusal
reaches the client, and is always wrapped in semaphoreAcquireError) or
the transport reported Unavailable; an error that is neither of these
aborts the whole run. -/
theorem retry_exactly_on_transient (recheckFlag : Bool) (j : JobState) (e : GoError) :
    (buildIteration recheckFlag j (Except.error e) = JobStep.retry ↔ isTemporary e = true) ∧
    (isTemporary e = true ↔
      ((∃ i, e = GoError.semaphoreAcquireError i) ∨
        ∃ m, e = GoError.grpcStatus codeUnavailable m)) ∧
    (isTemporary e = false → buildIteration recheckFlag j (Except.error e) = JobStep.abort e) ∧
    (∀ e0, clientAcquire (Except.ok ()) (Except.error e0) =
      Except.error (GoError.semaphoreAcquireError e0)) := by
  refine ⟨?_, ?_, ?_, fun e0 => rfl⟩
  · unfold buildIteration
    cases h : isTemporary e <;> simp [h]
  · cases e with
    | semaphoreAcquireError i => simp [isTemporary]
    | grpcStatus c m =>
      simp only [isTemporary, codeUnavailable, beq_iff_eq]
      constructor
      · intro hc
        exact Or.inr ⟨m, by rw [hc]⟩
      · intro hc
        rcases hc with ⟨i, hi⟩ | ⟨m2, hm⟩
        · cases hi
        · injection hm with h1 h2
    | errorString m => simp [isTemporary]
  · intro h
    unfold buildIteration
    simp [h]

/-- Witness for C3: an overloaded refusal surfaced through the acquire
stream is retried, Unavailable is retried, and a plain error aborts. -/
theorem retry_exactly_on_transient_witness :
    buildIteration false (initJob [] "buildlogs")
      (Except.error (GoError.semaphoreAcquireError
        (GoError.errorString "overloaded: maximum concurrent builds reached"))) =
      JobStep.retry ∧
    buildIteration false (initJob [] "buildlogs")
      (Except.error (GoError.grpcStatus 14 "unavailable")) = JobStep.retry ∧
    buildIteration false (initJob [] "buildlogs")
      (Except.error (GoError.errorString "no package to build specified")) =
      JobStep.abort (GoError.errorString "no package to build specified") := by
  refine ⟨?_, ?_, ?_⟩
  · exact (retry_exactly_on_transient false (initJob [] "buildlogs") _).1.mpr rfl
  · exact (retry_exactly_on_transient false (initJob [] "buildlogs") _).1.mpr rfl
  · exact (retry_exactly_on_transient false (initJob [] "buildlogs") _).2.2.1 rfl

/-- Claim C4: a job whose first build succeeds is classified Passing
whatever the recheck flag; with recheck enabled, a failed first build
is rerun exactly once with no injected extra debs and classified
AlreadyBroken when the rerun also fails and Failing when it succeeds;
with no recheck a failed job is classified Failing. Each run ends in
exactly one classification. -/
theorem job_classification (recheckFlag : Bool) (debs : List String) (d : String)
    (r1 r2 : BuildResult) :
    (r1.err = none →
      runJobTrace recheckFlag (initJob debs d) [Except.ok r1] =
        (JobOutcome.classified category.passing ⟨false, some r1, none, debs, d⟩, [debs])) ∧
    (r1.err.isSome = true →
      runJobTrace true (initJob debs d) [Except.ok r1, Except.ok r2] =
        (JobOutcome.classified
          (if r2.err.isSome then category.alreadyBroken else category.failing)
          ⟨true, some r1, some r2, [], d ++ "_recheck"⟩, [debs, []])) ∧
    (r1.err.isSome = true →
      runJobTrace false (initJob debs d) [Except.ok r1] =
        (JobOutcome.classified category.failing ⟨false, some r1, none, debs, d⟩, [debs])) := by
  refine ⟨?_, ?_, ?_⟩
  · intro h1
    simp [runJobTrace, buildIteration, initJob, classifyJob, optionErrSome, h1]
  · intro h1
    cases hr2 : r2.err.isSome <;>
      simp [runJobTrace, buildIteration, initJob, classifyJob, optionErrSome, h1, hr2]
  · intro h1
    simp [runJobTrace, buildIteration, initJob, classifyJob, optionErrSome, h1]

/-- Witness for C4: a succeeding first build passes; a failing first
build whose artifact-free recheck succeeds is Failing. -/
theorem job_classification_witness :
    runJobTrace true (initJob ["a.deb"] "buildlogs") [Except.ok ⟨none, "l1"⟩] =
      (JobOutcome.classified category.passing
        ⟨false, some ⟨none, "l1"⟩, none, ["a.deb"], "buildlogs"⟩, [["a.deb"]]) ∧
    runJobTrace true (initJob ["a.deb"] "buildlogs")
        [Except.ok ⟨some (GoError.errorString "exit status 1"), "l1"⟩,
          Except.ok ⟨none, "l2"⟩] =
      (JobOutcome.classified category.failing
        ⟨true, some ⟨some (GoError.errorString "exit status 1"), "l1"⟩,
          some ⟨none, "l2"⟩, [], "buildlogs_recheck"⟩, [["a.deb"], []]) := by
  constructor
  · exact (job_classification true ["a.deb"] "buildlogs" ⟨none, "l1"⟩ ⟨none, "l2"⟩).1 rfl
  · have h := (job_classification true ["a.deb"] "buildlogs"
      ⟨some (GoError.errorString "exit status 1"), "l1"⟩ ⟨none, "l2"⟩).2.1 rfl
    simpa using h

/-- Claim C10 (code bug): the progress reporter's states array indeed
has one entry per advertised capacity slot, but the orchestrator's
tasks index it with the zero-based job counter, which ranges over all
candidate packages: with capacity 1 and two packages, job index 1 is
among the indices used and its status write lands outside the
one-entry array (an index-out-of-range panic in Go). -/
theorem birdseye_status_out_of_bounds :
    (orchestratorStates 1).length = 1 ∧
    1 ∈ jobIndices 2 ∧
    birdseyeStatus (orchestratorStates 1) 1 birdseyeState.stateInit = none := by
  refine ⟨rfl, ?_, rfl⟩
  simp [jobIndices]

/-- Helper: in a duplicate-free list, the image of a member under a
map that is injective towards that member is counted exactly once. -/
theorem count_map_injOn {α β : Type} [DecidableEq α] [DecidableEq β]
    {l : List α} (f : α → β) (s : α)
    (hnd : l.Nodup) (hmem : s ∈ l) (hinj : ∀ a ∈ l, f a = f s → a = s) :
    (l.map f).count (f s) = 1 := by
  induction l with
  | nil => cases hmem
  | cons a rest ih =>
    rw [List.map_cons]
    by_cases ha : a = s
    · subst ha
      rw [List.count_cons_self]
      have hz : f a ∉ rest.map f := by
        intro hin
        rcases List.mem_map.mp hin with ⟨b, hb, hfb⟩
        have hba : b = a := hinj b (List.mem_cons_of_mem a hb) hfb
        rw [hba] at hb
        exact (List.nodup_cons.mp hnd).1 hb
      rw [List.count_eq_zero.mpr hz]
    · have hf : f a ≠ f s := fun hfa => ha (hinj a (List.mem_cons_self a rest) hfa)
      rw [List.count_cons_of_ne (Ne.symm hf)]
      have hm2 : s ∈ rest := by
        rcases List.mem_cons.mp hmem with h | h
        · exact absurd h.symm ha
        · exact h
      exact ih (List.nodup_cons.mp hnd).2 hm2
        (fun b hb => hinj b (List.mem_cons_of_mem a hb))

/-- Claim C7: one poll of the dynamic resolver with previous socket
set S and a directory listing whose socket entries form set T emits
exactly one delete for each address in S minus T and exactly one add
for each address in T minus S and nothing else, and emits no event at
all when S equals T; the retained set becomes T, so an added socket
appears — and a removed one disappears — within one polling interval.
(The injectivity hypothesis holds for real directory listings: entry
names are distinct and slash-free, so joining them onto the socket
directory keeps them distinct.) -/
theorem resolver_next_diff (dir : String) (old : List String) (fis : List DirEntry)
    (hold : old.Nodup) (hnew : (socketNames fis).Nodup)
    (hinj : ∀ a ∈ old ++ socketNames fis, ∀ b ∈ old ++ socketNames fis,
      joinGo dir a = joinGo dir b → a = b) :
    (sameSocketSet old (socketNames fis) = true → resolverNext dir old fis = ([], old)) ∧
    (∀ s ∈ old, s ∉ socketNames fis →
      (resolverNext dir old fis).1.count ⟨UpdateOp.delete, joinGo dir s⟩ = 1) ∧
    (∀ s ∈ socketNames fis, s ∉ old →
      (resolverNext dir old fis).1.count ⟨UpdateOp.add, joinGo dir s⟩ = 1) ∧
    ((resolverNext dir old fis).1.length =
      (old.filter (fun s => !(socketNames fis).contains s)).length +
        ((socketNames fis).filter (fun s => !old.contains s)).length) ∧
    ((resolverNext dir old fis).2 =
      if sameSocketSet old (socketNames fis) then old else socketNames fis) := by
  refine ⟨?_, ?_, ?_, ?_, ?_⟩
  · intro h
    simp only [resolverNext]
    rw [if_pos h]
  · intro s hs hns
    have hss : ¬ sameSocketSet old (socketNames fis) = true := by
      intro hb
      simp only [sameSocketSet, Bool.and_eq_true, List.all_eq_true] at hb
      exact hns (List.mem_of_elem_eq_true (hb.1 s hs))
    simp only [resolverNext]
    rw [if_neg hss, List.count_append]
    have hadds : (((socketNames fis).filter (fun x => !old.contains x)).map
        (fun x => NamingUpdate.mk UpdateOp.add (joinGo dir x))).count
          ⟨UpdateOp.delete, joinGo dir s⟩ = 0 := by
      rw [List.count_eq_zero]
      intro hin
      rcases List.mem_map.mp hin with ⟨b, _, hfb⟩
      injection hfb with h1 h2
      cases h1
    have hdels : ((old.filter (fun x => !(socketNames fis).contains x)).map
        (fun x => NamingUpdate.mk UpdateOp.delete (joinGo dir x))).count
          ⟨UpdateOp.delete, joinGo dir s⟩ = 1 := by
      have := count_map_injOn (l := old.filter (fun x => !(socketNames fis).contains x))
        (fun x => NamingUpdate.mk UpdateOp.delete (joinGo dir x)) s
        (hold.filter _)
        (List.mem_filter.mpr ⟨hs, by simpa using hns⟩)
        (fun b hb hfb => by
          injection hfb with h1 h2
          exact hinj b (List.mem_append_left _ (List.mem_filter.mp hb).1)
            s (List.mem_append_left _ hs) h2)
      exact this
    rw [hadds, hdels]
  · intro s hs hno
    have hss : ¬ sameSocketSet old (socketNames fis) = true := by
      intro hb
      simp only [sameSocketSet, Bool.and_eq_true, List.all_eq_true] at hb
      exact hno (List.mem_of_elem_eq_true (hb.2 s hs))
    simp only [resolverNext]
    rw [if_neg hss, List.count_append]
    have hdels : ((old.filter (fun x => !(socketNames fis).contains x)).map
        (fun x => NamingUpdate.mk UpdateOp.delete (joinGo dir x))).count
          ⟨UpdateOp.add, joinGo dir s⟩ = 0 := by
      rw [List.count_eq_zero]
      intro hin
      rcases List.mem_map.mp hin with ⟨b, _, hfb⟩
      injection hfb with h1 h2
      cases h1
    have hadds : (((socketNames fis).filter (fun x => !old.contains x)).map
        (fun x => NamingUpdate.mk UpdateOp.add (joinGo dir x))).count
          ⟨UpdateOp.add, joinGo dir s⟩ = 1 := by
      have := count_map_injOn (l := (socketNames fis).filter (fun x => !old.contains x))
        (fun x => NamingUpdate.mk UpdateOp.add (joinGo dir x)) s
        (hnew.filter _)
        (List.mem_filter.mpr ⟨hs, by simpa using hno⟩)
        (fun b hb hfb => by
          injection hfb with h1 h2
          exact hinj b (List.mem_append_right _ (List.mem_filter.mp hb).1)
            s (List.mem_append_right _ hs) h2)
      exact this
    rw [hadds, hdels]
  · by_cases hb : sameSocketSet old (socketNames fis) = true
    · have hbb := hb
      simp only [sameSocketSet, Bool.and_eq_true, List.all_eq_true] at hb
      have h1 := hb.1
      have h2 := hb.2
      have e1 : old.filter (fun s => !(socketNames fis).contains s) = [] := by
        rw [List.filter_eq_nil_iff]
        intro a ha
        rw [h1 a ha]
        simp
      have e2 : (socketNames fis).filter (fun s => !old.contains s) = [] := by
        rw [List.filter_eq_nil_iff]
        intro a ha
        rw [h2 a ha]
        simp
      simp only [resolverNext]
      rw [if_pos hbb, e1, e2]
      rfl
    · simp only [resolverNext]
      rw [if_neg hb]
      simp [List.length_append, List.length_map]
  · by_cases hb : sameSocketSet old (socketNames fis) = true
    · simp only [resolverNext]
      rw [if_pos hb, if_pos hb]
    · simp only [resolverNext]
      rw [if_neg hb, if_neg hb]

/-- Witness for C7: polling a directory that gained b.sock (and holds
a non-socket entry, which is ignored) emits exactly one add for the
joined address of b.sock. -/
theorem resolver_next_diff_witness :
    (resolverNext "/run/ratt" ["a.sock"]
      [⟨"a.sock", true⟩, ⟨"b.sock", true⟩, ⟨"x.txt", false⟩]).1.count
        ⟨UpdateOp.add, joinGo "/run/ratt" "b.sock"⟩ = 1 :=
  (resolver_next_diff "/run/ratt" ["a.sock"]
      [⟨"a.sock", true⟩, ⟨"b.sock", true⟩, ⟨"x.txt", false⟩]
      (by decide) (by decide) (by decide)).2.2.1
    "b.sock" (by decide) (by decide)

/-- Helper: walking a list of result pairs once per category, passing
first, is a permutation of the list (the three category filters
partition it). -/
theorem filter_three_perm (rs : List (String × categorizedResult)) :
    (rs.filter (fun p => p.2.cat == category.passing) ++
      (rs.filter (fun p => p.2.cat == category.alreadyBroken) ++
        rs.filter (fun p => p.2.cat == category.failing))).Perm rs := by
  induction rs with
  | nil => simp
  | cons p rest ih =>
    cases hc : p.2.cat with
    | passing =>
      simp only [List.filter_cons, hc]
      simp only [beq_self_eq_true, if_true]
      have hne1 : (category.passing == category.alreadyBroken) = false := by decide
      have hne2 : (category.passing == category.failing) = false := by decide
      simp only [hne1, hne2, Bool.false_eq_true, if_false]
      exact (ih.cons p)
    | alreadyBroken =>
      simp only [List.filter_cons, hc]
      have hne1 : (category.alreadyBroken == category.passing) = false := by decide
      have hne2 : (category.alreadyBroken == category.failing) = false := by decide
      simp only [hne1, hne2, beq_self_eq_true, if_true, Bool.false_eq_true, if_false]
      exact List.perm_middle.trans (ih.cons p)
    | failing =>
      simp only [List.filter_cons, hc]
      have hne1 : (category.failing == category.passing) = false := by decide
      have hne2 : (category.failing == category.alreadyBroken) = false := by decide
      simp only [hne1, hne2, beq_self_eq_true, if_true, Bool.false_eq_true, if_false]
      rw [← List.append_assoc]
      refine List.perm_middle.trans (List.Perm.cons p ?_)
      rw [List.append_assoc]
      exact ih

/-- Claim C8 counterexample: a completed orchestrator run whose only
package is classified Failing still finishes with exit status 0 — the
orchestrator main has no failure-exit path keyed on the build
results. -/
theorem failing_run_exits_zero :
    (failingRun.filter (fun p => p.2.cat == category.failing)).length = 1 ∧
    mainExit none = 0 :=
  ⟨rfl, rfl⟩

/-- Claim C8 as amended: the final report lists every candidate package
exactly once, each under its own category, with all Passing entries
first (then AlreadyBroken, then Failing); the process exit status of a
completed run is 0 — it does not signal failure when packages are
classified Failing (only an aborted orchestration exits non-zero). -/
theorem report_groups_and_exit (rs : List (String × categorizedResult))
    (hnd : (rs.map Prod.fst).Nodup) :
    (reportEntries rs =
      (rs.filter (fun p => p.2.cat == category.passing)).map
          (fun p => (category.passing, p.1)) ++
        ((rs.filter (fun p => p.2.cat == category.alreadyBroken)).map
            (fun p => (category.alreadyBroken, p.1)) ++
          (rs.filter (fun p => p.2.cat == category.failing)).map
            (fun p => (category.failing, p.1)))) ∧
    ((reportEntries rs).map Prod.snd).Perm (rs.map Prod.fst) ∧
    (∀ c src, (c, src) ∈ reportEntries rs → ∃ r, (src, r) ∈ rs ∧ r.cat = c) ∧
    (∀ src ∈ rs.map Prod.fst, ((reportEntries rs).map Prod.snd).count src = 1) ∧
    mainExit none = 0 := by
  have hsplit : (reportEntries rs).map Prod.snd =
      ((rs.filter (fun p => p.2.cat == category.passing) ++
        (rs.filter (fun p => p.2.cat == category.alreadyBroken) ++
          rs.filter (fun p => p.2.cat == category.failing))).map (fun p => p.1)) := by
    simp [reportEntries, categoryOrder, Function.comp_def]
  have hperm : ((reportEntries rs).map Prod.snd).Perm (rs.map Prod.fst) := by
    rw [hsplit]
    exact (filter_three_perm rs).map (fun p => p.1)
  refine ⟨?_, hperm, ?_, ?_, rfl⟩
  · simp [reportEntries, categoryOrder]
  · intro c src h
    simp only [reportEntries, categoryOrder, List.flatMap_cons, List.flatMap_nil,
      List.append_nil, List.mem_append, List.mem_map, List.mem_filter] at h
    rcases h with ⟨p, ⟨hp, hcat⟩, heq⟩ | ⟨p, ⟨hp, hcat⟩, heq⟩ | ⟨p, ⟨hp, hcat⟩, heq⟩ <;>
      · injection heq with hcEq hsrc
        refine ⟨p.2, ?_, ?_⟩
        · rw [← hsrc]
          simpa using hp
        · rw [← hcEq]
          exact beq_iff_eq.mp hcat
  · intro src hsrc
    rw [hperm.count_eq src]
    exact List.count_eq_one_of_mem hnd hsrc

/-- Witness for C8: on the single-Failing-package run, the report lists
pkg1 exactly once and the completed process exits 0. -/
theorem report_groups_and_exit_witness :
    ((reportEntries failingRun).map Prod.snd).count "pkg1" = 1 ∧ mainExit none = 0 :=
  ⟨(report_groups_and_exit failingRun (by simp [failingRun])).2.2.2.1 "pkg1"
      (by simp [failingRun]),
    (report_groups_and_exit failingRun (by simp [failingRun])).2.2.2.2⟩

end Ratt
